import Mathlib

/-!
Verification development for the `firebase_functions` params and manifest
modules (`src/firebase_functions/params.py`,
`src/firebase_functions/private/manifest.py`).

The Python code is shallowly embedded: dataclasses become structures, the
process environment becomes an explicit `Env` argument, the process-wide
param registry becomes explicit state threaded through a `registerParam`
step, and methods that can `raise` return `Except`.  Python `float` is
modelled as the exact rationals `Rat`; every claim below concerns lookup
and fallback control flow, string composition or serialization structure,
never floating-point rounding.
-/

namespace FirebaseFunctions

/-- The process environment (`os.environ`): a string-keyed partial map.
`env name = some s` models `name in os.environ` with value `s`. -/
abbrev Env := String → Option String

/-- Errors raised at evaluation time.  The Python code raises `ValueError`
with distinct messages; we separate them by site. -/
inductive EvalErr where
  /-- `int(...)` / `float(...)` failing on a non-numeric string. -/
  | typeConversion : EvalErr
  /-- `BoolParam.value`: `Invalid value for {name}: {value}`. -/
  | invalidBoolean (name value : String) : EvalErr
  /-- `CompareExpression.value`: `Unknown comparator {comparator}`. -/
  | invalidComparator (comparator : String) : EvalErr
  deriving Repr, DecidableEq

/-- Model of Python `int(s)` restricted to an optional sign followed by
ASCII digits.  (Python's `int` additionally strips whitespace and allows
underscore separators; no claim depends on those corners.) -/
def pyInt (s : String) : Option Int :=
  let core (ds : List Char) : Option Nat :=
    if ds = [] ∨ ¬ ds.all Char.isDigit then none
    else some (ds.foldl (fun acc c => acc * 10 + (c.toNat - 48)) 0)
  match s.data with
  | '-' :: rest => (core rest).map (fun n => -(n : Int))
  | '+' :: rest => (core rest).map (fun n => (n : Int))
  | ds => (core ds).map (fun n => (n : Int))

/-- Model of Python `float(s)` restricted to an optional sign, digits and an
optional fractional part, read into an exact rational.  (Python's `float`
additionally accepts exponents, `inf`/`nan` and whitespace, and rounds to
binary; no claim depends on the numeric grammar or on rounding.) -/
def pyFloat (s : String) : Option Rat :=
  let digits (ds : List Char) : Option Nat :=
    if ds = [] ∨ ¬ ds.all Char.isDigit then none
    else some (ds.foldl (fun acc c => acc * 10 + (c.toNat - 48)) 0)
  let core (ds : List Char) : Option Rat :=
    match ds.splitOn '.' with
    | [whole] => (digits whole).map (fun n => (n : Rat))
    | [whole, frac] =>
      match digits whole, digits frac with
      | some w, some f => some ((w : Rat) + (f : Rat) / ((10 : Rat) ^ frac.length))
      | _, _ => none
    | _ => none
  match s.data with
  | '-' :: rest => (core rest).map (fun q => -q)
  | '+' :: rest => (core rest).map (fun q => q)
  | ds => core ds

/-! ### Param declarations (`params.py`)

`Param` is the generic frozen dataclass; the concrete classes
`StringParam`, `IntParam`, `FloatParam`, `BoolParam`, `ListParam` share its
fields at their respective value types.  The `input` field
(`TextInput | ResourceInput | SelectInput`) is carried for fidelity; no
method reads it. -/

/-- `SelectOptions`: one selectable option. -/
structure SelectOptions (α : Type) where
  value : α
  label : Option String := none
  deriving Repr, DecidableEq

/-- `TextInput`: free-text prompt with optional validation regex. -/
structure TextInput where
  example? : Option String := none
  validation_regex : Option String := none
  validation_error_message : Option String := none
  deriving Repr, DecidableEq

/-- `ResourceInput`: pick a project resource of the given type. -/
structure ResourceInput where
  type : String
  deriving Repr, DecidableEq

/-- `TextInput | ResourceInput | SelectInput[T]`, defaulting to `TextInput()`. -/
inductive ParamInput (α : Type) where
  | text (t : TextInput) : ParamInput α
  | resource (r : ResourceInput) : ParamInput α
  | select (options : List (SelectOptions α)) : ParamInput α
  deriving Repr, DecidableEq

/-- The fields of the frozen dataclass `Param[T]`. -/
structure Param (α : Type) where
  name : String
  default : Option α := none
  label : Option String := none
  description : Option String := none
  immutable : Option Bool := none
  input : ParamInput α := .text {}
  deriving Repr, DecidableEq

/-- The fields of the frozen dataclass `SecretParam` (no `default`, no
`input`). -/
structure SecretParam where
  name : String
  label : Option String := none
  description : Option String := none
  immutable : Option Bool := none
  deriving Repr, DecidableEq

/-- `StringParam.value`: the raw environment entry if present (even `""`),
else the default if present, else `str()` = `""`. -/
def StringParam.value (p : Param String) (env : Env) : String :=
  match env p.name with
  | some s => s
  | none =>
    match p.default with
    | some d => d
    | none => ""

/-- `IntParam.value`: `int(env entry)` if present, else the default if
present, else `int()` = `0`. -/
def IntParam.value (p : Param Int) (env : Env) : Except EvalErr Int :=
  match env p.name with
  | some s =>
    match pyInt s with
    | some n => .ok n
    | none => .error .typeConversion
  | none =>
    match p.default with
    | some d => .ok d
    | none => .ok 0

/-- `FloatParam.value`: `float(env entry)` if present, else the default if
present, else `float()` = `0.0`. -/
def FloatParam.value (p : Param Rat) (env : Env) : Except EvalErr Rat :=
  match env p.name with
  | some s =>
    match pyFloat s with
    | some q => .ok q
    | none => .error .typeConversion
  | none =>
    match p.default with
    | some d => .ok d
    | none => .ok 0

/-- Python `s.lower()`, characterwise via `Char.toLower` (ASCII case
mapping; the boolean tokens it is matched against are ASCII). -/
def pyLower (s : String) : String :=
  ⟨s.data.map Char.toLower⟩

/-- Python `s.split(",")`: the maximal segments between `','` occurrences,
separators dropped (`"".split(",") == [""]`). -/
def pySplitComma (s : String) : List String :=
  (s.data.splitOn ',').map String.mk

/-- The true tokens of `BoolParam.value`. -/
def boolTrueTokens : List String := ["true", "t", "1", "y", "yes"]

/-- The false tokens of `BoolParam.value`. -/
def boolFalseTokens : List String := ["false", "f", "0", "n", "no"]

/-- `BoolParam.value`: a present environment entry is lowercased and matched
against the two token lists, any other token raising; only an absent entry
falls back to the default, else `False`. -/
def BoolParam.value (p : Param Bool) (env : Env) : Except EvalErr Bool :=
  match env p.name with
  | some s =>
    if boolTrueTokens.contains (pyLower s) then .ok true
    else if boolFalseTokens.contains (pyLower s) then .ok false
    else .error (.invalidBoolean p.name s)
  | none =>
    match p.default with
    | some d => .ok d
    | none => .ok false

/-- `ListParam.value`: a present environment entry is split on `','` and
empty segments are dropped (`filter(len, ...)`), else the default if
present, else `[]`. -/
def ListParam.value (p : Param (List String)) (env : Env) : List String :=
  match env p.name with
  | some s => (pySplitComma s).filter (fun seg => seg.length ≠ 0)
  | none =>
    match p.default with
    | some d => d
    | none => []

/-- `SecretParam.value`: `os.environ.get(name, "")`. -/
def SecretParam.value (s : SecretParam) (env : Env) : String :=
  (env s.name).getD ""

/-! ### The param registry (`_params` and the two `__post_init__` hooks)

Constructing any `Param` subclass or a `SecretParam` runs a
`__post_init__` hook that validates the name, rejects duplicates against
the process-wide dict `_params`, and inserts itself.  We close the family
of constructible params into a sum and thread the dict explicitly. -/

/-- A concrete param object, one constructor per concrete Python class.
`_DefaultStringParam` is a distinct subclass of `StringParam` with the same
fields. -/
inductive AnyParam where
  | stringP (p : Param String) : AnyParam
  | intP (p : Param Int) : AnyParam
  | floatP (p : Param Rat) : AnyParam
  | boolP (p : Param Bool) : AnyParam
  | listP (p : Param (List String)) : AnyParam
  | defaultStringP (p : Param String) : AnyParam
  | secretP (s : SecretParam) : AnyParam
  deriving Repr, DecidableEq

/-- The `name` field of the underlying object. -/
def AnyParam.name : AnyParam → String
  | .stringP p | .intP p | .floatP p | .boolP p | .listP p | .defaultStringP p => p.name
  | .secretP s => s.name

/-- `isinstance(self, _DefaultStringParam)`. -/
def AnyParam.isDefaultStringParam : AnyParam → Bool
  | .defaultStringP _ => true
  | _ => false

/-- `re.match(r"^[A-Z0-9_]+$", name)`: nonempty, all characters uppercase
ASCII letters, digits or underscore.  (Python's `$` would also admit one
trailing newline; such a name is not valid upper-snake-case and no claim
exercises it.) -/
def validName (s : String) : Bool :=
  s.length ≠ 0 && s.data.all (fun c => ('A' ≤ c && c ≤ 'Z') || c.isDigit || c = '_')

/-- The process-wide `_params` dict, as an insertion-ordered association
list (Python dicts preserve insertion order; a new key is appended). -/
abbrev Registry := List (String × AnyParam)

/-- Errors raised by the `__post_init__` hooks (both are `ValueError` in
Python, with distinct messages). -/
inductive RegErr where
  | invalidName : RegErr
  | duplicateParam (name : String) : RegErr
  deriving Repr, DecidableEq

/-- The construction-time hook.  `Param.__post_init__` returns immediately
for `_DefaultStringParam` (no check, no insertion); otherwise — and in
`SecretParam.__post_init__` always — it validates the name format, raises
on a name already in `_params`, and inserts `name ↦ self`. -/
def registerParam (reg : Registry) (p : AnyParam) : Except RegErr Registry :=
  if p.isDefaultStringParam then .ok reg
  else if ¬ validName p.name then .error .invalidName
  else if (reg.lookup p.name).isSome then .error (.duplicateParam p.name)
  else .ok (reg ++ [(p.name, p)])

/-- Constructing a sequence of params in order, threading `_params`. -/
def registerAll (reg : Registry) : List AnyParam → Except RegErr Registry
  | [] => .ok reg
  | p :: ps => do registerAll (← registerParam reg p) ps

/-- `PROJECT_ID = _DefaultStringParam("GCLOUD_PROJECT", description=...)`. -/
def PROJECT_ID : AnyParam :=
  .defaultStringP { name := "GCLOUD_PROJECT",
                    description := some "The active Firebase project" }

/-- `STORAGE_BUCKET = _DefaultStringParam("STORAGE_BUCKET", ...)`. -/
def STORAGE_BUCKET : AnyParam :=
  .defaultStringP { name := "STORAGE_BUCKET",
                    description := some "The default Cloud Storage for Firebase bucket" }

/-- `DATABASE_URL = _DefaultStringParam("DATABASE_URL", ...)`. -/
def DATABASE_URL : AnyParam :=
  .defaultStringP { name := "DATABASE_URL",
                    description := some "The Firebase project's default Realtime Database instance URL" }

/-- `DATABASE_INSTANCE = _DefaultStringParam("DATABASE_INSTANCE", ...)`. -/
def DATABASE_INSTANCE : AnyParam :=
  .defaultStringP { name := "DATABASE_INSTANCE",
                    description := some "The Firebase project's default Realtime Database instance name" }

/-- `EXTENSION_ID = _DefaultStringParam("EXT_INSTANCE_ID", ..., default="")`. -/
def EXTENSION_ID : AnyParam :=
  .defaultStringP { name := "EXT_INSTANCE_ID",
                    label := some "Extension instance ID",
                    description := some ("When a function is running as part of an extension, " ++
                      "this is the unique identifier for the installed extension instance"),
                    default := some "" }

/-- Importing `params.py` constructs exactly the five platform default
params, in this order, against an initially empty `_params`. -/
def moduleInitRegistry : Except RegErr Registry :=
  registerAll [] [PROJECT_ID, STORAGE_BUCKET, DATABASE_URL, DATABASE_INSTANCE, EXTENSION_ID]

/-- The registry invariant of claim C10: every key is a valid
upper-snake-case name and maps to the non-default param whose construction
inserted it (so the entry's own `name` is the key). -/
def RegistryWf (reg : Registry) : Prop :=
  ∀ kv ∈ reg, validName kv.1 ∧ kv.2.name = kv.1 ∧ kv.2.isDefaultStringParam = false

/-! ### The expression algebra (`Expression`, `CompareExpression`,
`TernaryExpression`)

`Expression[T]` ranges over the type variable `_T ∈ {str, int, float, bool,
list}`; we index the embedded syntax by that universe.  Leaves are the
param classes (each a frozen dataclass extending `Expression`);
`CompareExpression` holds a comparator string, a left sub-expression and a
right literal; `TernaryExpression` holds a boolean test and two literals. -/

/-- The instantiations of the type variable `_T`. -/
inductive PTy where
  | str | int | float | bool | list
  deriving Repr, DecidableEq

/-- The Lean carrier of each instantiation (`float` as exact rationals). -/
@[reducible]
def PTy.denote : PTy → Type
  | .str => String
  | .int => Int
  | .float => Rat
  | .bool => Bool
  | .list => List String

/-- The `Expression[T]` syntax reachable from the public classes. -/
inductive Expr : PTy → Type where
  | stringParam (p : Param String) : Expr .str
  | intParam (p : Param Int) : Expr .int
  | floatParam (p : Param Rat) : Expr .float
  | boolParam (p : Param Bool) : Expr .bool
  | listParam (p : Param (List String)) : Expr .list
  | secretParam (s : SecretParam) : Expr .str
  | ternary {τ : PTy} (test : Expr .bool) (if_true if_false : τ.denote) : Expr τ
  | compare {τ : PTy} (comparator : String) (left : Expr τ) (right : τ.denote) : Expr .bool

/-- `CompareExpression.then(if_true, if_false)`. -/
def Expr.then_ {τ : PTy} (test : Expr .bool) (if_true if_false : τ.denote) : Expr τ :=
  .ternary test if_true if_false

/-- Python `==` at each instantiation. -/
def PTy.beq : (τ : PTy) → τ.denote → τ.denote → Bool
  | .str, a, b => a == b
  | .int, a, b => a == b
  | .float, a, b => a == b
  | .bool, a, b => a == b
  | .list, a, b => a == b

/-- Python `<` on lists of strings: lexicographic, a strict prefix smaller. -/
def listLexLt : List String → List String → Bool
  | [], [] => false
  | [], _ :: _ => true
  | _ :: _, [] => false
  | a :: as, b :: bs => decide (a < b) || (a == b && listLexLt as bs)

/-- Python `<` at each instantiation: numeric order on numbers, `False <
True` on booleans, lexicographic order on strings and on lists. -/
def PTy.blt : (τ : PTy) → τ.denote → τ.denote → Bool
  | .str, a, b => decide (a < b)
  | .int, a, b => decide (a < b)
  | .float, a, b => decide (a < b)
  | .bool, a, b => !a && b
  | .list, a, b => listLexLt a b

/-- Python `<=` at each instantiation (total orders: `a <= b` iff `a < b`
or `a == b`). -/
def PTy.ble (τ : PTy) (a b : τ.denote) : Bool :=
  τ.blt a b || τ.beq a b

/-- `Expression.value`. `TernaryExpression.value` evaluates the test and
selects a branch; `CompareExpression.value` evaluates the left side, then
dispatches on the comparator string, raising on an unknown one.  Param
leaves resolve through their class's `value` against the environment. -/
def Expr.value (env : Env) : {τ : PTy} → Expr τ → Except EvalErr τ.denote
  | _, .stringParam p => .ok (StringParam.value p env)
  | _, .intParam p => IntParam.value p env
  | _, .floatParam p => FloatParam.value p env
  | _, .boolParam p => BoolParam.value p env
  | _, .listParam p => .ok (ListParam.value p env)
  | _, .secretParam s => .ok (SecretParam.value s env)
  | _, .ternary test t f => do
    let b ← test.value env
    pure (if b then t else f)
  | _, .compare (τ := τ) c l r => do
    let left ← l.value env
    if c = "==" then pure (τ.beq left r)
    else if c = ">" then pure (τ.blt r left)
    else if c = ">=" then pure (τ.ble r left)
    else if c = "<" then pure (τ.blt left r)
    else if c = "<=" then pure (τ.ble left r)
    else .error (.invalidComparator c)

/-- Python `str(x)` of an int (`-5` / `5`). -/
def pyIntStr (n : Int) : String := toString n

/-- Python `str(x)` of a float.  Python prints the shortest round-trip
decimal of the binary double; floats being modelled as rationals, this
rendering is a stand-in, and no claim renders a float literal. -/
def pyFloatStr (q : Rat) : String := toString q

/-- Python `str(x)` of a list of strings: `['a', 'b']`, elements in their
`repr` form.  (Python switches an element's quotes when it contains a
quote; no claim renders such an element.) -/
def pyListStr (l : List String) : String :=
  "[" ++ String.intercalate ", " (l.map (fun s => "\x27" ++ s ++ "\x27")) ++ "]"

/-- The interpolation `f"{x}"` applied to a literal of each type. -/
def PTy.pyStr : (τ : PTy) → τ.denote → String
  | .str, s => s
  | .int, n => pyIntStr n
  | .float, q => pyFloatStr q
  | .bool, b => if b then "True" else "False"
  | .list, l => pyListStr l

/-- `_quote_if_string(literal)` as it lands in the surrounding f-string:
string literals double-quoted, every other literal via `str()`. -/
def quoteIfString (τ : PTy) (v : τ.denote) : String :=
  match τ, v with
  | .str, s => "\"" ++ s ++ "\""
  | τ, v => τ.pyStr v

/-- `__str__`: params print as `params.{name}`;
`CompareExpression.__str__` is `f"{left} {comparator} {quoted right}"`;
`TernaryExpression.__str__` is `f"{test} ? {quoted if_true} : {quoted if_false}"`. -/
def Expr.str : {τ : PTy} → Expr τ → String
  | _, .stringParam p => "params." ++ p.name
  | _, .intParam p => "params." ++ p.name
  | _, .floatParam p => "params." ++ p.name
  | _, .boolParam p => "params." ++ p.name
  | _, .listParam p => "params." ++ p.name
  | _, .secretParam s => "params." ++ s.name
  | _, .ternary (τ := τ) test t f =>
    test.str ++ " ? " ++ quoteIfString τ t ++ " : " ++ quoteIfString τ f
  | _, .compare (τ := τ) c l r => l.str ++ " " ++ c ++ " " ++ quoteIfString τ r

/-- `Expression.to_cel`: `f"{{{{ {self} }}}}"`, i.e. the braced directive
`\x7b\x7b <str> \x7d\x7d`. -/
def Expr.to_cel {τ : PTy} (e : Expr τ) : String :=
  "\x7b\x7b " ++ e.str ++ " \x7d\x7d"

/-! ### The manifest serializer (`private/manifest.py`)

The serializer is reflective in Python (`dataclasses.fields`, `isinstance`
dispatch), so we embed the universe of Python values it can meet as one
inductive `PyVal` and translate each `isinstance` arm to a constructor
match, in the source's order. -/

/-- Modelled from the spec: the `Sentinel` class of
`firebase_functions/private/util.py` is not among the source files.  The
spec describes it as a singleton marker meaning "explicitly cleared",
distinct from field absence and from every legal field value, serialized
as a reserved token.  We model it as its own constructor of `PyVal`
carrying the marker's description. -/
structure Sentinel where
  description : String
  deriving Repr, DecidableEq

/-- A Python value as seen by `_object_to_spec`: `None`, scalars,
expressions, the `Sentinel` marker, `Enum` members, frozen dataclasses
(field list in declaration order), `dict`s (entries in insertion order)
and `list`s. -/
inductive PyVal where
  | none : PyVal
  | str (s : String) : PyVal
  | int (n : Int) : PyVal
  | float (q : Rat) : PyVal
  | bool (b : Bool) : PyVal
  | expr (τ : PTy) (e : Expr τ) : PyVal
  | sentinel (s : Sentinel) : PyVal
  | enum (value : PyVal) : PyVal
  | dataclass (fields : List (String × PyVal)) : PyVal
  | dict (entries : List (String × PyVal)) : PyVal
  | list (xs : List PyVal) : PyVal

/-- `value is None`. -/
def PyVal.isNone : PyVal → Bool
  | .none => true
  | _ => false

mutual

/-- `_object_to_spec(data)`: `Enum` members yield their `.value` (not
recursively converted), expressions their `to_cel()` text, dataclasses and
dicts their converted mappings, lists convert element-wise, and anything
else — including `None` and the `Sentinel` marker — passes through
unchanged. -/
def _object_to_spec : PyVal → PyVal
  | .enum v => v
  | .expr _ e => .str e.to_cel
  | .dataclass fields => .dict (_dataclass_fields_to_spec fields)
  | .list xs => .list (_list_to_spec xs)
  | .dict entries => .dict (_dict_factory entries)
  | v => v

/-- The loop of `_dataclass_to_spec`: convert each declared field's value,
keeping it only when the converted value is not `None`. -/
def _dataclass_fields_to_spec : List (String × PyVal) → List (String × PyVal)
  | [] => []
  | (k, v) :: rest =>
    let v2 := _object_to_spec v
    if v2.isNone then _dataclass_fields_to_spec rest
    else (k, v2) :: _dataclass_fields_to_spec rest

/-- `_dict_factory(data)`: keep an entry only when its original value is
not `None`, converting the kept values. -/
def _dict_factory : List (String × PyVal) → List (String × PyVal)
  | [] => []
  | (k, v) :: rest =>
    if v.isNone then _dict_factory rest
    else (k, _object_to_spec v) :: _dict_factory rest

/-- `list(map(_object_to_spec, data))`. -/
def _list_to_spec : List PyVal → List PyVal
  | [] => []
  | x :: xs => _object_to_spec x :: _list_to_spec xs

end

/-- `_dataclass_to_spec(data)` on a dataclass's field list. -/
def _dataclass_to_spec (fields : List (String × PyVal)) : List (String × PyVal) :=
  _dataclass_fields_to_spec fields

/-- `_dict_to_spec(data) = _dict_factory(list(data.items()))`. -/
def _dict_to_spec (data : List (String × PyVal)) : List (String × PyVal) :=
  _dict_factory data

/-- Python `d[k] = v` on an insertion-ordered dict: replace in place when
the key exists, append otherwise. -/
def dictSet (d : List (String × PyVal)) (k : String) (v : PyVal) : List (String × PyVal) :=
  if (d.lookup k).isSome then d.map (fun kv => if kv.1 = k then (k, v) else kv)
  else d ++ [(k, v)]

/-- An optional string as the Python attribute value. -/
def optStr : Option String → PyVal
  | Option.none => .none
  | some s => .str s

/-- An optional bool as the Python attribute value. -/
def optBool : Option Bool → PyVal
  | Option.none => .none
  | some b => .bool b

/-- The `label` field of the underlying object. -/
def AnyParam.label : AnyParam → Option String
  | .stringP p | .intP p | .floatP p | .boolP p | .listP p | .defaultStringP p => p.label
  | .secretP s => s.label

/-- The `description` field of the underlying object. -/
def AnyParam.description : AnyParam → Option String
  | .stringP p | .intP p | .floatP p | .boolP p | .listP p | .defaultStringP p => p.description
  | .secretP s => s.description

/-- The `immutable` field of the underlying object. -/
def AnyParam.immutable : AnyParam → Option Bool
  | .stringP p | .intP p | .floatP p | .boolP p | .listP p | .defaultStringP p => p.immutable
  | .secretP s => s.immutable

/-- `_param_to_spec(param)`: build `{name, label, description, immutable}`;
append `default` for every `Param` (not `SecretParam`); append the `type`
tag through the `isinstance` chain `BoolParam → IntParam → FloatParam →
SecretParam → ListParam → StringParam` (so `_DefaultStringParam` lands on
`string`), a `ListParam`'s non-`None` default being overwritten in place
by its `","`-join; finally run the result through `_dict_to_spec`, which
drops the `None`-valued entries. -/
def _param_to_spec (p : AnyParam) : List (String × PyVal) :=
  let d0 : List (String × PyVal) :=
    [("name", .str p.name), ("label", optStr p.label),
     ("description", optStr p.description), ("immutable", optBool p.immutable)]
  let d1 := match p with
    | .secretP _ => d0
    | .stringP q | .defaultStringP q => dictSet d0 "default" (optStr q.default)
    | .intP q =>
      dictSet d0 "default" (match q.default with | some n => .int n | Option.none => .none)
    | .floatP q =>
      dictSet d0 "default" (match q.default with | some x => .float x | Option.none => .none)
    | .boolP q => dictSet d0 "default" (optBool q.default)
    | .listP q =>
      dictSet d0 "default"
        (match q.default with | some l => .list (l.map PyVal.str) | Option.none => .none)
  let d2 := match p with
    | .boolP _ => dictSet d1 "type" (.str "boolean")
    | .intP _ => dictSet d1 "type" (.str "int")
    | .floatP _ => dictSet d1 "type" (.str "float")
    | .secretP _ => dictSet d1 "type" (.str "secret")
    | .listP q =>
      let d := dictSet d1 "type" (.str "list")
      -- `spec_dict["default"]` was set from `param.default` above, so the
      -- `is not None` test is a test on `q.default`.
      match q.default with
      | some l => dictSet d "default" (.str (String.intercalate "," l))
      | Option.none => d
    | .stringP _ | .defaultStringP _ => dictSet d1 "type" (.str "string")
  _dict_to_spec d2

/-! ### The manifest data model (`ManifestEndpoint`, triggers,
`ManifestStack`)

Union-typed fields (`int | Expression[int] | Sentinel | None` and
friends) become small sums; `None` / a missing `NotRequired` key becomes
`absent` / `Option.none`.  Each record carries an encoder into `PyVal`
listing its fields in declaration order, as `dataclasses.fields` and dict
insertion order would present them to the serializer. -/

/-- `int | Expression[int] | Sentinel | None`. -/
inductive IntExprField where
  | int (n : Int) : IntExprField
  | expr (e : Expr .int) : IntExprField
  | sentinel (s : Sentinel) : IntExprField
  | absent : IntExprField

/-- Encoding into the serializer's value universe. -/
def IntExprField.toPyVal : IntExprField → PyVal
  | .int n => .int n
  | .expr e => .expr .int e
  | .sentinel s => .sentinel s
  | .absent => .none

/-- `str | Sentinel | None`. -/
inductive StrSentinelField where
  | str (s : String) : StrSentinelField
  | sentinel (s : Sentinel) : StrSentinelField
  | absent : StrSentinelField

/-- Encoding into the serializer's value universe. -/
def StrSentinelField.toPyVal : StrSentinelField → PyVal
  | .str s => .str s
  | .sentinel s => .sentinel s
  | .absent => .none

/-- `int | str | Sentinel | None` (the `cpu` field). -/
inductive CpuField where
  | int (n : Int) : CpuField
  | str (s : String) : CpuField
  | sentinel (s : Sentinel) : CpuField
  | absent : CpuField

/-- Encoding into the serializer's value universe. -/
def CpuField.toPyVal : CpuField → PyVal
  | .int n => .int n
  | .str s => .str s
  | .sentinel s => .sentinel s
  | .absent => .none

/-- `str | Expression[str]` (required value positions in triggers). -/
inductive StrExprVal where
  | str (s : String) : StrExprVal
  | expr (e : Expr .str) : StrExprVal

/-- Encoding into the serializer's value universe. -/
def StrExprVal.toPyVal : StrExprVal → PyVal
  | .str s => .str s
  | .expr e => .expr .str e

/-- `int | Expression[int]` (required value positions in triggers). -/
inductive IntExprVal where
  | int (n : Int) : IntExprVal
  | expr (e : Expr .int) : IntExprVal

/-- Encoding into the serializer's value universe. -/
def IntExprVal.toPyVal : IntExprVal → PyVal
  | .int n => .int n
  | .expr e => .expr .int e

/-- `bool | Expression[bool]` (the `retry` field). -/
inductive BoolExprVal where
  | bool (b : Bool) : BoolExprVal
  | expr (e : Expr .bool) : BoolExprVal

/-- Encoding into the serializer's value universe. -/
def BoolExprVal.toPyVal : BoolExprVal → PyVal
  | .bool b => .bool b
  | .expr e => .expr .bool e

/-- An optional (`NotRequired`) TypedDict entry: present entries are
emitted, absent ones leave no key at all. -/
def optEntry (key : String) : Option PyVal → List (String × PyVal)
  | Option.none => []
  | some v => [(key, v)]

/-- `SecretEnvironmentVariable` TypedDict: `key` required, `secret` not. -/
structure SecretEnvironmentVariable where
  key : String
  secret : Option String := Option.none

/-- Encoding into the serializer's value universe. -/
def SecretEnvironmentVariable.toPyVal (v : SecretEnvironmentVariable) : PyVal :=
  .dict ([("key", .str v.key)] ++ optEntry "secret" (v.secret.map PyVal.str))

/-- `list[SecretEnvironmentVariable] | Sentinel | None`. -/
inductive SecretEnvField where
  | list (xs : List SecretEnvironmentVariable) : SecretEnvField
  | sentinel (s : Sentinel) : SecretEnvField
  | absent : SecretEnvField

/-- Encoding into the serializer's value universe. -/
def SecretEnvField.toPyVal : SecretEnvField → PyVal
  | .list xs => .list (xs.map SecretEnvironmentVariable.toPyVal)
  | .sentinel s => .sentinel s
  | .absent => .none

/-- `VpcSettings` TypedDict: `connector` required; `egressSettings`
optional, `str | Sentinel` when present. -/
structure VpcSettings where
  connector : String
  egressSettings : Option (Sum String Sentinel) := Option.none

/-- Encoding into the serializer's value universe. -/
def VpcSettings.toPyVal (v : VpcSettings) : PyVal :=
  .dict ([("connector", .str v.connector)] ++
    optEntry "egressSettings"
      (v.egressSettings.map (fun e => match e with
        | .inl s => PyVal.str s
        | .inr s => PyVal.sentinel s)))

/-- `HttpsTrigger` TypedDict. -/
structure HttpsTrigger where
  invoker : Option (List String) := Option.none

/-- Encoding into the serializer's value universe. -/
def HttpsTrigger.toPyVal (t : HttpsTrigger) : PyVal :=
  .dict (optEntry "invoker" (t.invoker.map (fun l => PyVal.list (l.map PyVal.str))))

/-- `CallableTrigger` TypedDict (no fields). -/
structure CallableTrigger where
  deriving Repr

/-- Encoding into the serializer's value universe. -/
def CallableTrigger.toPyVal (_ : CallableTrigger) : PyVal := .dict []

/-- `EventTrigger` TypedDict: filter maps over `str | Expression[str]`,
`eventType` and `retry` required. -/
structure EventTrigger where
  eventFilters : Option (List (String × StrExprVal)) := Option.none
  eventFilterPathPatterns : Option (List (String × StrExprVal)) := Option.none
  channel : Option String := Option.none
  eventType : String
  retry : BoolExprVal

/-- Encoding into the serializer's value universe, keys in the
TypedDict's declaration order. -/
def EventTrigger.toPyVal (t : EventTrigger) : PyVal :=
  .dict (optEntry "eventFilters"
      (t.eventFilters.map (fun m => PyVal.dict (m.map (fun kv => (kv.1, kv.2.toPyVal))))) ++
    optEntry "eventFilterPathPatterns"
      (t.eventFilterPathPatterns.map (fun m => PyVal.dict (m.map (fun kv => (kv.1, kv.2.toPyVal))))) ++
    optEntry "channel" (t.channel.map PyVal.str) ++
    [("eventType", .str t.eventType), ("retry", t.retry.toPyVal)])

/-- `RetryConfig` TypedDict. -/
structure RetryConfig where
  retryCount : Option IntExprVal := Option.none
  maxRetrySeconds : Option StrExprVal := Option.none
  minBackoffSeconds : Option StrExprVal := Option.none
  maxBackoffSeconds : Option StrExprVal := Option.none
  maxDoublings : Option IntExprVal := Option.none

/-- Encoding into the serializer's value universe. -/
def RetryConfig.toPyVal (r : RetryConfig) : PyVal :=
  .dict (optEntry "retryCount" (r.retryCount.map IntExprVal.toPyVal) ++
    optEntry "maxRetrySeconds" (r.maxRetrySeconds.map StrExprVal.toPyVal) ++
    optEntry "minBackoffSeconds" (r.minBackoffSeconds.map StrExprVal.toPyVal) ++
    optEntry "maxBackoffSeconds" (r.maxBackoffSeconds.map StrExprVal.toPyVal) ++
    optEntry "maxDoublings" (r.maxDoublings.map IntExprVal.toPyVal))

/-- `ScheduleTrigger` TypedDict. -/
structure ScheduleTrigger where
  schedule : Option StrExprVal := Option.none
  timeZone : Option StrExprVal := Option.none
  retryConfig : Option RetryConfig := Option.none

/-- Encoding into the serializer's value universe. -/
def ScheduleTrigger.toPyVal (t : ScheduleTrigger) : PyVal :=
  .dict (optEntry "schedule" (t.schedule.map StrExprVal.toPyVal) ++
    optEntry "timeZone" (t.timeZone.map StrExprVal.toPyVal) ++
    optEntry "retryConfig" (t.retryConfig.map RetryConfig.toPyVal))

/-- `BlockingTrigger` TypedDict. -/
structure BlockingTrigger where
  eventType : String

/-- Encoding into the serializer's value universe. -/
def BlockingTrigger.toPyVal (t : BlockingTrigger) : PyVal :=
  .dict [("eventType", .str t.eventType)]

/-- The frozen dataclass `ManifestEndpoint`, fields in declaration order
with their declared defaults (`region = []`, `platform = "gcfv2"`,
`secretEnvironmentVariables = []`; everything else `None`). -/
structure ManifestEndpoint where
  entryPoint : Option String := Option.none
  region : Option (List String) := some []
  platform : Option String := some "gcfv2"
  availableMemoryMb : IntExprField := .absent
  maxInstances : IntExprField := .absent
  minInstances : IntExprField := .absent
  concurrency : IntExprField := .absent
  serviceAccountEmail : StrSentinelField := .absent
  timeoutSeconds : IntExprField := .absent
  cpu : CpuField := .absent
  vpc : Option VpcSettings := Option.none
  labels : Option (List (String × String)) := Option.none
  ingressSettings : StrSentinelField := .absent
  secretEnvironmentVariables : SecretEnvField := .list []
  httpsTrigger : Option HttpsTrigger := Option.none
  callableTrigger : Option CallableTrigger := Option.none
  eventTrigger : Option EventTrigger := Option.none
  scheduleTrigger : Option ScheduleTrigger := Option.none
  blockingTrigger : Option BlockingTrigger := Option.none

/-- `dataclasses.fields(endpoint)` with each field's value, in declaration
order, as `_dataclass_to_spec` iterates them. -/
def ManifestEndpoint.fieldsPyVal (e : ManifestEndpoint) : List (String × PyVal) :=
  [("entryPoint", optStr e.entryPoint),
   ("region", match e.region with
     | some l => .list (l.map PyVal.str)
     | Option.none => .none),
   ("platform", optStr e.platform),
   ("availableMemoryMb", e.availableMemoryMb.toPyVal),
   ("maxInstances", e.maxInstances.toPyVal),
   ("minInstances", e.minInstances.toPyVal),
   ("concurrency", e.concurrency.toPyVal),
   ("serviceAccountEmail", e.serviceAccountEmail.toPyVal),
   ("timeoutSeconds", e.timeoutSeconds.toPyVal),
   ("cpu", e.cpu.toPyVal),
   ("vpc", match e.vpc with
     | some v => v.toPyVal
     | Option.none => .none),
   ("labels", match e.labels with
     | some m => .dict (m.map (fun kv => (kv.1, PyVal.str kv.2)))
     | Option.none => .none),
   ("ingressSettings", e.ingressSettings.toPyVal),
   ("secretEnvironmentVariables", e.secretEnvironmentVariables.toPyVal),
   ("httpsTrigger", match e.httpsTrigger with
     | some t => t.toPyVal
     | Option.none => .none),
   ("callableTrigger", match e.callableTrigger with
     | some t => t.toPyVal
     | Option.none => .none),
   ("eventTrigger", match e.eventTrigger with
     | some t => t.toPyVal
     | Option.none => .none),
   ("scheduleTrigger", match e.scheduleTrigger with
     | some t => t.toPyVal
     | Option.none => .none),
   ("blockingTrigger", match e.blockingTrigger with
     | some t => t.toPyVal
     | Option.none => .none)]

/-- The serialized spec of one endpoint: `_dataclass_to_spec(endpoint)`. -/
def ManifestEndpoint.to_spec (e : ManifestEndpoint) : List (String × PyVal) :=
  _dataclass_to_spec e.fieldsPyVal

/-- A param object in the `params` list of a `ManifestStack`, as the
generic serializer would see it (every param is an `Expression` leaf). -/
def AnyParam.asExprPyVal : AnyParam → PyVal
  | .stringP p => .expr .str (.stringParam p)
  | .intP p => .expr .int (.intParam p)
  | .floatP p => .expr .float (.floatParam p)
  | .boolP p => .expr .bool (.boolParam p)
  | .listP p => .expr .list (.listParam p)
  | .defaultStringP p => .expr .str (.stringParam p)
  | .secretP s => .expr .str (.secretParam s)

/-- The frozen dataclass `ManifestStack`. -/
structure ManifestStack where
  endpoints : List (String × ManifestEndpoint)
  specVersion : String := "v1alpha1"
  params : Option (List AnyParam) := some []
  requiredAPIs : List (String × String) := []

/-- `dataclasses.fields(stack)` with each field's value, in declaration
order. -/
def ManifestStack.fieldsPyVal (m : ManifestStack) : List (String × PyVal) :=
  [("endpoints", .dict (m.endpoints.map (fun kv => (kv.1, PyVal.dataclass kv.2.fieldsPyVal)))),
   ("specVersion", .str m.specVersion),
   ("params", match m.params with
     | some ps => .list (ps.map AnyParam.asExprPyVal)
     | Option.none => .none),
   ("requiredAPIs", .list (m.requiredAPIs.map (fun kv =>
     PyVal.dict [("api", .str kv.1), ("reason", .str kv.2)])))]

/-- `manifest_to_spec_dict(manifest)`: the generic dataclass conversion,
then — when `params` is not `None` — the `params` key overwritten with the
custom `_param_to_spec` of each registered param. -/
def manifest_to_spec_dict (m : ManifestStack) : List (String × PyVal) :=
  let out := _dataclass_to_spec m.fieldsPyVal
  match m.params with
  | some ps => dictSet out "params" (.list (ps.map (fun p => PyVal.dict (_param_to_spec p))))
  | Option.none => out

/-- The `ParamSpec` record as §4.3 and §6 of the spec describe it, amended
to what `_dict_to_spec`'s None-dropping leaves: `name` and `type` always,
`label` / `description` / `immutable` / `default` exactly when carried, a
list default comma-joined.  This is the spec-side characterization, to be
compared with the source translation `_param_to_spec`. -/
def paramSpecRecord (p : AnyParam) : List (String × PyVal) :=
  [("name", PyVal.str p.name)] ++
  (match p.label with | some s => [("label", PyVal.str s)] | Option.none => []) ++
  (match p.description with | some s => [("description", PyVal.str s)] | Option.none => []) ++
  (match p.immutable with | some b => [("immutable", PyVal.bool b)] | Option.none => []) ++
  (match p with
    | .stringP q | .defaultStringP q =>
      match q.default with | some s => [("default", PyVal.str s)] | Option.none => []
    | .intP q =>
      match q.default with | some n => [("default", PyVal.int n)] | Option.none => []
    | .floatP q =>
      match q.default with | some x => [("default", PyVal.float x)] | Option.none => []
    | .boolP q =>
      match q.default with | some b => [("default", PyVal.bool b)] | Option.none => []
    | .listP q =>
      match q.default with
      | some l => [("default", PyVal.str (String.intercalate "," l))]
      | Option.none => []
    | .secretP _ => []) ++
  [("type", PyVal.str (match p with
    | .boolP _ => "boolean"
    | .intP _ => "int"
    | .floatP _ => "float"
    | .secretP _ => "secret"
    | .listP _ => "list"
    | .stringP _ | .defaultStringP _ => "string"))]

/-! ## Helper lemmas -/

theorem lookup_append_none {l2 : Registry} {k : String} :
    ∀ {l1 : Registry}, l1.lookup k = Option.none →
      (l1 ++ l2).lookup k = l2.lookup k := by
  intro l1
  induction l1 with
  | nil => intro _; rfl
  | cons a t ih =>
    intro h
    obtain ⟨a1, a2⟩ := a
    rw [List.cons_append]
    simp only [List.lookup] at h ⊢
    cases hk : (k == a1) with
    | true => simp [hk] at h
    | false => rw [hk] at h; exact ih h

theorem lookup_singleton_ne {k a : String} {p : AnyParam} (h : k ≠ a) :
    ([(a, p)] : Registry).lookup k = Option.none := by
  simp only [List.lookup]
  rw [show (k == a) = false by simpa using h]

theorem mem_fields_to_spec_of_mem {k : String} {v : PyVal}
    (hv : (_object_to_spec v).isNone = false) :
    ∀ {l : List (String × PyVal)}, (k, v) ∈ l →
      (k, _object_to_spec v) ∈ _dataclass_fields_to_spec l := by
  intro l
  induction l with
  | nil => intro h; cases h
  | cons a t ih =>
    intro h
    obtain ⟨a1, a2⟩ := a
    simp only [_dataclass_fields_to_spec]
    rcases List.mem_cons.mp h with heq | hmem
    · cases heq
      rw [if_neg (by simp [hv])]
      exact List.mem_cons_self _ _
    · by_cases hn : (_object_to_spec a2).isNone = true
      · rw [if_pos hn]; exact ih hmem
      · rw [if_neg hn]; exact List.mem_cons_of_mem _ (ih hmem)

theorem not_mem_fields_to_spec {k : String} :
    ∀ {l : List (String × PyVal)},
      (∀ v, (k, v) ∈ l → (_object_to_spec v).isNone = true) →
      ∀ v, (k, v) ∉ _dataclass_fields_to_spec l := by
  intro l
  induction l with
  | nil => intro _ v hv; cases hv
  | cons a t ih =>
    intro h v hv
    obtain ⟨a1, a2⟩ := a
    simp only [_dataclass_fields_to_spec] at hv
    by_cases hn : (_object_to_spec a2).isNone = true
    · rw [if_pos hn] at hv
      exact ih (fun w hw => h w (List.mem_cons_of_mem _ hw)) v hv
    · rw [if_neg hn] at hv
      rcases List.mem_cons.mp hv with heq | hmem
      · have hk : k = a1 := congrArg Prod.fst heq
        subst hk
        exact hn (h a2 (List.mem_cons_self _ _))
      · exact ih (fun w hw => h w (List.mem_cons_of_mem _ hw)) v hmem

/-! ## Claim theorems -/

/-- C1: for every typed param and every environment, `value()` follows the
fallback order.  A present environment entry is returned with the declared
coercion — the raw string for `StringParam` (even when it is `""`),
`int(...)`/`float(...)` for the numeric params, the boolean token match
for `BoolParam`, and the `','`-split with empty segments dropped for
`ListParam` — overriding any default; with no entry the declared default
is returned; with neither, the zero value `""`, `0`, `0.0`, `false`, `[]`. -/
theorem param_value_fallback_order (env : Env)
    (ps : Param String) (pi : Param Int) (pf : Param Rat)
    (pb : Param Bool) (pl : Param (List String)) :
    (∀ s, env ps.name = some s → StringParam.value ps env = s) ∧
    (env ps.name = some "" → StringParam.value ps env = "") ∧
    (env ps.name = Option.none → ∀ d, ps.default = some d → StringParam.value ps env = d) ∧
    (env ps.name = Option.none → ps.default = Option.none → StringParam.value ps env = "") ∧
    (∀ s n, env pi.name = some s → pyInt s = some n → IntParam.value pi env = .ok n) ∧
    (env pi.name = Option.none → ∀ d, pi.default = some d → IntParam.value pi env = .ok d) ∧
    (env pi.name = Option.none → pi.default = Option.none → IntParam.value pi env = .ok 0) ∧
    (∀ s q, env pf.name = some s → pyFloat s = some q → FloatParam.value pf env = .ok q) ∧
    (env pf.name = Option.none → ∀ d, pf.default = some d → FloatParam.value pf env = .ok d) ∧
    (env pf.name = Option.none → pf.default = Option.none → FloatParam.value pf env = .ok 0) ∧
    (∀ s, env pb.name = some s → pyLower s ∈ boolTrueTokens →
      BoolParam.value pb env = .ok true) ∧
    (∀ s, env pb.name = some s → pyLower s ∈ boolFalseTokens →
      BoolParam.value pb env = .ok false) ∧
    (env pb.name = Option.none → ∀ d, pb.default = some d → BoolParam.value pb env = .ok d) ∧
    (env pb.name = Option.none → pb.default = Option.none → BoolParam.value pb env = .ok false) ∧
    (∀ s, env pl.name = some s →
      ListParam.value pl env = (pySplitComma s).filter (fun seg => seg.length ≠ 0)) ∧
    (env pl.name = Option.none → ∀ d, pl.default = some d → ListParam.value pl env = d) ∧
    (env pl.name = Option.none → pl.default = Option.none → ListParam.value pl env = []) := by
  refine ⟨?_, ?_, ?_, ?_, ?_, ?_, ?_, ?_, ?_, ?_, ?_, ?_, ?_, ?_, ?_, ?_, ?_⟩
  · intro s h; simp [StringParam.value, h]
  · intro h; simp [StringParam.value, h]
  · intro h d hd; simp [StringParam.value, h, hd]
  · intro h hd; simp [StringParam.value, h, hd]
  · intro s n h hn; simp [IntParam.value, h, hn]
  · intro h d hd; simp [IntParam.value, h, hd]
  · intro h hd; simp [IntParam.value, h, hd]
  · intro s q h hq; simp [FloatParam.value, h, hq]
  · intro h d hd; simp [FloatParam.value, h, hd]
  · intro h hd; simp [FloatParam.value, h, hd]
  · intro s h ht; simp [BoolParam.value, h, ht]
  · intro s h hf
    have hf' := hf
    simp only [boolFalseTokens, List.mem_cons, List.not_mem_nil, or_false] at hf'
    rcases hf' with h1 | h1 | h1 | h1 | h1 <;>
      simp [BoolParam.value, h, boolTrueTokens, boolFalseTokens, h1]
  · intro h d hd; simp [BoolParam.value, h, hd]
  · intro h hd; simp [BoolParam.value, h, hd]
  · intro s h; simp [ListParam.value, h]
  · intro h d hd; simp [ListParam.value, h, hd]
  · intro h hd; simp [ListParam.value, h, hd]

/-- Witness for C1 at a concrete environment and concrete params. -/
theorem param_value_fallback_order_witness :
    StringParam.value { name := "PS" }
      (fun n => if n = "PS" then some "" else if n = "PI" then some "42"
        else if n = "PB" then some "No" else Option.none) = "" ∧
    IntParam.value { name := "PI", default := some 7 }
      (fun n => if n = "PS" then some "" else if n = "PI" then some "42"
        else if n = "PB" then some "No" else Option.none) = .ok 42 ∧
    BoolParam.value { name := "PB", default := some true }
      (fun n => if n = "PS" then some "" else if n = "PI" then some "42"
        else if n = "PB" then some "No" else Option.none) = .ok false ∧
    ListParam.value { name := "PL", default := some ["z"] }
      (fun n => if n = "PS" then some "" else if n = "PI" then some "42"
        else if n = "PB" then some "No" else Option.none) = ["z"] := by
  have h := param_value_fallback_order
    (fun n => if n = "PS" then some "" else if n = "PI" then some "42"
      else if n = "PB" then some "No" else Option.none)
    { name := "PS" } { name := "PI", default := some 7 } { name := "PF" }
    { name := "PB", default := some true } { name := "PL", default := some ["z"] }
  refine ⟨h.2.1 (by decide), ?_, ?_, ?_⟩
  · exact h.2.2.2.2.1 "42" 42 (by decide) (by decide)
  · exact h.2.2.2.2.2.2.2.2.2.2.2.1 "No" (by decide) (by decide)
  · exact h.2.2.2.2.2.2.2.2.2.2.2.2.2.2.2.1 (by decide) ["z"] (by decide)

/-- C8: with an environment entry present, `BoolParam.value` is decided
entirely by the case-insensitive token match: a token lowering into
`{true,t,1,y,yes}` yields `true`, one lowering into `{false,f,0,n,no}`
yields `false`, and any other token raises `InvalidBooleanError` — never
falling back to the default. -/
theorem bool_param_token_match (env : Env) (pb : Param Bool) (s : String)
    (h : env pb.name = some s) :
    (pyLower s ∈ boolTrueTokens → BoolParam.value pb env = .ok true) ∧
    (pyLower s ∈ boolFalseTokens → BoolParam.value pb env = .ok false) ∧
    (pyLower s ∉ boolTrueTokens → pyLower s ∉ boolFalseTokens →
      BoolParam.value pb env = .error (.invalidBoolean pb.name s)) := by
  refine ⟨?_, ?_, ?_⟩
  · intro ht; simp [BoolParam.value, h, ht]
  · intro hf
    have hf' := hf
    simp only [boolFalseTokens, List.mem_cons, List.not_mem_nil, or_false] at hf'
    rcases hf' with h1 | h1 | h1 | h1 | h1 <;>
      simp [BoolParam.value, h, boolTrueTokens, boolFalseTokens, h1]
  · intro ht hf; simp [BoolParam.value, h, ht, hf]

/-- Witness for C8: `"YES"` is true, `"f"` is false, `"maybe"` raises. -/
theorem bool_param_token_match_witness :
    BoolParam.value { name := "B1", default := some false }
      (fun n => if n = "B1" then some "YES" else if n = "B2" then some "f"
        else if n = "B3" then some "maybe" else Option.none) = .ok true ∧
    BoolParam.value { name := "B2", default := some true }
      (fun n => if n = "B1" then some "YES" else if n = "B2" then some "f"
        else if n = "B3" then some "maybe" else Option.none) = .ok false ∧
    BoolParam.value { name := "B3", default := some true }
      (fun n => if n = "B1" then some "YES" else if n = "B2" then some "f"
        else if n = "B3" then some "maybe" else Option.none) =
      .error (.invalidBoolean "B3" "maybe") := by
  refine ⟨?_, ?_, ?_⟩
  · exact (bool_param_token_match _ { name := "B1", default := some false } "YES"
      (by decide)).1 (by decide)
  · exact (bool_param_token_match _ { name := "B2", default := some true } "f"
      (by decide)).2.1 (by decide)
  · exact (bool_param_token_match _ { name := "B3", default := some true } "maybe"
      (by decide)).2.2 (by decide) (by decide)

/-- C2: constructing a param (`Param` subtype or `SecretParam`) under a
valid upper-snake-case name that is already registered raises
`DuplicateParamError` while the registry keeps mapping that name to the
originally registered param; and constructing a sequence of params with
distinct valid fresh names never raises. -/
theorem duplicate_param_error_and_distinct_ok :
    (∀ (reg : Registry) (p q : AnyParam),
      p.isDefaultStringParam = false → validName p.name = true →
      reg.lookup p.name = some q →
      registerParam reg p = .error (.duplicateParam p.name) ∧
        reg.lookup p.name = some q) ∧
    (∀ (reg : Registry) (ps : List AnyParam),
      (∀ p ∈ ps, p.isDefaultStringParam = false ∧ validName p.name = true ∧
        reg.lookup p.name = Option.none) →
      ps.Pairwise (fun a b => a.name ≠ b.name) →
      ∃ reg2, registerAll reg ps = .ok reg2) := by
  constructor
  · intro reg p q hdef hvalid hlookup
    refine ⟨?_, hlookup⟩
    simp [registerParam, hdef, hvalid, hlookup]
  · intro reg ps
    induction ps generalizing reg with
    | nil => intro _ _; exact ⟨reg, rfl⟩
    | cons p rest ih =>
      intro hall hpw
      obtain ⟨hdef, hvalid, hfresh⟩ := hall p (List.mem_cons_self _ _)
      have hreg : registerParam reg p = .ok (reg ++ [(p.name, p)]) := by
        simp [registerParam, hdef, hvalid, hfresh]
      have hall2 : ∀ q ∈ rest, q.isDefaultStringParam = false ∧
          validName q.name = true ∧
          (reg ++ [(p.name, p)]).lookup q.name = Option.none := by
        intro q hq
        obtain ⟨h1, h2, h3⟩ := hall q (List.mem_cons_of_mem _ hq)
        refine ⟨h1, h2, ?_⟩
        rw [lookup_append_none h3]
        exact lookup_singleton_ne (Ne.symm ((List.pairwise_cons.mp hpw).1 q hq))
      obtain ⟨reg2, hreg2⟩ := ih (reg ++ [(p.name, p)]) hall2 (List.pairwise_cons.mp hpw).2
      refine ⟨reg2, ?_⟩
      simp only [registerAll, hreg]
      exact hreg2

/-- Witness for C2: re-declaring `FOO` raises `DuplicateParamError`; the
two fresh distinct names `A1` and `B2` register fine. -/
theorem duplicate_param_error_and_distinct_ok_witness :
    (registerParam [("FOO", AnyParam.stringP { name := "FOO" })]
        (AnyParam.intP { name := "FOO" }) = .error (.duplicateParam "FOO")) ∧
    (∃ reg2, registerAll []
        [AnyParam.stringP { name := "A1" }, AnyParam.secretP { name := "B2" }] = .ok reg2) := by
  constructor
  · exact (duplicate_param_error_and_distinct_ok.1
      [("FOO", AnyParam.stringP { name := "FOO" })]
      (AnyParam.intP { name := "FOO" }) (AnyParam.stringP { name := "FOO" })
      (by decide) (by decide) (by decide)).1
  · refine duplicate_param_error_and_distinct_ok.2 []
      [AnyParam.stringP { name := "A1" }, AnyParam.secretP { name := "B2" }] ?_ ?_
    · intro p hp
      simp only [List.mem_cons, List.not_mem_nil, or_false] at hp
      rcases hp with h1 | h1 <;> subst h1 <;> exact ⟨by decide, by decide, by decide⟩
    · refine List.Pairwise.cons ?_ (List.pairwise_singleton _ _)
      intro b hb
      simp only [List.mem_singleton] at hb
      subst hb
      decide

/-- C10: `_DefaultStringParam` construction bypasses the registry entirely
(it is never inserted), successful registration preserves the invariant
that every key is a valid upper-snake-case name mapped to the non-default
param that registered it, importing the module leaves `_params` empty, and
a user param later named `GCLOUD_PROJECT` registers without a
`DuplicateParamError`. -/
theorem default_string_param_not_registered :
    (∀ (reg : Registry) (p : Param String),
      registerParam reg (.defaultStringP p) = .ok reg) ∧
    (∀ (reg reg2 : Registry) (p : AnyParam), RegistryWf reg →
      registerParam reg p = .ok reg2 → RegistryWf reg2) ∧
    moduleInitRegistry = .ok [] ∧
    registerParam [] (.stringP { name := "GCLOUD_PROJECT" }) =
      .ok [("GCLOUD_PROJECT", .stringP { name := "GCLOUD_PROJECT" })] := by
  refine ⟨?_, ?_, by rfl, by rfl⟩
  · intro reg p; rfl
  · intro reg reg2 p hwf hreg
    unfold registerParam at hreg
    by_cases hdef : p.isDefaultStringParam = true
    · rw [if_pos hdef] at hreg
      cases hreg
      exact hwf
    · rw [if_neg hdef] at hreg
      by_cases hvalid : validName p.name = true
      · rw [if_neg (not_not_intro hvalid)] at hreg
        by_cases hdup : (reg.lookup p.name).isSome = true
        · rw [if_pos hdup] at hreg
          exact Except.noConfusion hreg
        · rw [if_neg hdup] at hreg
          cases hreg
          intro kv hkv
          rcases List.mem_append.mp hkv with hm | hm
          · exact hwf kv hm
          · rw [List.mem_singleton] at hm
            subst hm
            exact ⟨hvalid, rfl, by simpa using hdef⟩
      · rw [if_pos (by simpa using hvalid)] at hreg
        exact Except.noConfusion hreg

/-- Witness for C10: registering `A` on the empty registry yields a
well-formed registry. -/
theorem default_string_param_not_registered_witness :
    RegistryWf [("A", AnyParam.stringP { name := "A" })] :=
  default_string_param_not_registered.2.1 [] _ (AnyParam.stringP { name := "A" })
    (by intro kv h; exact absurd h (List.not_mem_nil kv)) (by rfl)

/-- C6: `CompareExpression.value` with a comparator among
`==, >, >=, <, <=` returns the comparison of the left expression's value
against the right literal under that comparator (Python `l > r` being
`r < l`, `l >= r` being `r <= l`); any other comparator string raises
`InvalidComparatorError`. -/
theorem compare_value_dispatch {τ : PTy} (env : Env) (l : Expr τ) (r : τ.denote)
    (lv : τ.denote) (h : l.value env = .ok lv) :
    ((Expr.compare "==" l r).value env = .ok (τ.beq lv r)) ∧
    ((Expr.compare ">" l r).value env = .ok (τ.blt r lv)) ∧
    ((Expr.compare ">=" l r).value env = .ok (τ.ble r lv)) ∧
    ((Expr.compare "<" l r).value env = .ok (τ.blt lv r)) ∧
    ((Expr.compare "<=" l r).value env = .ok (τ.ble lv r)) ∧
    (∀ c, c ≠ "==" → c ≠ ">" → c ≠ ">=" → c ≠ "<" → c ≠ "<=" →
      (Expr.compare c l r).value env = .error (.invalidComparator c)) := by
  refine ⟨?_, ?_, ?_, ?_, ?_, ?_⟩
  · simp [Expr.value, h]
  · simp [Expr.value, h]
  · simp [Expr.value, h]
  · simp [Expr.value, h]
  · simp [Expr.value, h]
  · intro c h1 h2 h3 h4 h5
    simp only [Expr.value, h, h1, h2, h3, h4, h5, if_neg, ite_false]
    rfl

/-- Witness for C6 at `IntParam(default=5) > 3` and an unknown comparator. -/
theorem compare_value_dispatch_witness :
    ((Expr.compare ">" (.intParam { name := "N", default := some 5 }) 3).value
      (fun _ => Option.none) = .ok true) ∧
    ((Expr.compare "=>" (.intParam { name := "N", default := some 5 }) 3).value
      (fun _ => Option.none) = .error (.invalidComparator "=>")) := by
  have h := compare_value_dispatch (τ := .int) (fun _ => Option.none)
    (.intParam { name := "N", default := some 5 }) 3 5 (by rfl)
  exact ⟨by simpa using h.2.1,
    h.2.2.2.2.2 "=>" (by decide) (by decide) (by decide) (by decide) (by decide)⟩

/-- C7: rendering is exact structural text composition:
`"<left> <op> <rightLiteral>"` for a comparison and
`"<test> ? <trueLiteral> : <falseLiteral>"` for a ternary, the string
literals double-quoted, the non-string literals rendered by `str()`, the
left/test side never quoted; `CompareExpression("==", StringParam("X"),
"y")` renders as `params.X == "y"`; and the embedded-directive form wraps
the rendering in doubled braces. -/
theorem render_text_composition :
    (∀ (τ : PTy) (c : String) (l : Expr τ) (r : τ.denote),
      (Expr.compare c l r).str = l.str ++ " " ++ c ++ " " ++ quoteIfString τ r) ∧
    (∀ (τ : PTy) (test : Expr .bool) (t f : τ.denote),
      (Expr.ternary test t f).str =
        test.str ++ " ? " ++ quoteIfString τ t ++ " : " ++ quoteIfString τ f) ∧
    (∀ s : String, quoteIfString .str s = "\"" ++ s ++ "\"") ∧
    (∀ n : Int, quoteIfString .int n = pyIntStr n) ∧
    (∀ q : Rat, quoteIfString .float q = pyFloatStr q) ∧
    (∀ b : Bool, quoteIfString .bool b = PTy.pyStr .bool b) ∧
    (∀ l : List String, quoteIfString .list l = pyListStr l) ∧
    (∀ p : Param String, (Expr.stringParam p).str = "params." ++ p.name) ∧
    ((Expr.compare "==" (.stringParam { name := "X" }) "y").str =
      "params.X == \"y\"") ∧
    (∀ (τ : PTy) (e : Expr τ), e.to_cel = "\x7b\x7b " ++ e.str ++ " \x7d\x7d") := by
  exact ⟨fun τ c l r => rfl, fun τ test t f => rfl, fun s => rfl, fun n => rfl,
    fun q => rfl, fun b => rfl, fun l => rfl, fun p => rfl, by rfl,
    fun τ e => rfl⟩

/-- C9: `TernaryExpression.value` returns `if_true` exactly when the test
evaluates true, `if_false` otherwise; concretely, with no environment
entry, `CompareExpression(">", IntParam(default=5), 3).value()` is `True`
and the composed `.then("a", "b").value()` is `"a"`. -/
theorem ternary_value_selects {τ : PTy} (env : Env) (test : Expr .bool)
    (t f : τ.denote) (b : Bool) (h : test.value env = .ok b) :
    ((Expr.ternary test t f).value env = .ok (if b then t else f)) ∧
    ((Expr.compare ">" (.intParam { name := "AN_INT", default := some 5 }) 3).value
      (fun _ => Option.none) = .ok true) ∧
    ((Expr.then_ (τ := .str)
      (Expr.compare ">" (.intParam { name := "AN_INT", default := some 5 }) 3)
      "a" "b").value (fun _ => Option.none) = .ok "a") := by
  refine ⟨?_, by rfl, by rfl⟩
  simp [Expr.value, h]

/-- Witness for C9 with a boolean test that defaults to `True`. -/
theorem ternary_value_selects_witness :
    (Expr.ternary (τ := .str) (.boolParam { name := "BB", default := some true })
      "yes" "no").value (fun _ => Option.none) = .ok "yes" := by
  have h := ternary_value_selects (τ := .str) (fun _ => Option.none)
    (.boolParam { name := "BB", default := some true }) "yes" "no" true (by rfl)
  simpa using h.1

/-- C3: the serializer emits every `Expression` value in the tree
(including param leaves) as its rendered braced CEL text — the `to_cel`
output — and never its locally evaluated `value()`: the conversion reads
no environment at all, and the emitted value is a string, never a value
of the expression's type (below, the boolean `retry` expression).  A
`ManifestEndpoint` whose `EventTrigger` holds an `Expression` field
round-trips to the rendered text in the output mapping. -/
theorem serializer_renders_expressions :
    (∀ (τ : PTy) (e : Expr τ), _object_to_spec (.expr τ e) = .str e.to_cel) ∧
    (ManifestEndpoint.to_spec
      { entryPoint := some "fn",
        eventTrigger := some
          { eventType := "google.cloud.pubsub.topic.v1.messagePublished",
            retry := .expr (.boolParam { name := "RETRY", default := some true }) } } =
      [("entryPoint", .str "fn"),
       ("region", .list []),
       ("platform", .str "gcfv2"),
       ("secretEnvironmentVariables", .list []),
       ("eventTrigger", .dict
         [("eventType", .str "google.cloud.pubsub.topic.v1.messagePublished"),
          ("retry", .str "\x7b\x7b params.RETRY \x7d\x7d")])]) ∧
    (∀ b : Bool, _object_to_spec
      (.expr .bool (.boolParam { name := "RETRY", default := some true })) ≠ .bool b) := by
  refine ⟨fun τ e => rfl, by rfl, ?_⟩
  intro b hb
  exact PyVal.noConfusion hb

/-- C4: serialization drops a record field (or mapping entry) whose value
is absent (`None`) entirely, while a field holding the `Sentinel` marker
is kept and serialized to the marker itself — a representation distinct
from omission (kept where `None` is dropped, and not equal to `None`) and
from every legal field value. -/
theorem absent_dropped_sentinel_kept :
    (∀ (k : String) (rest : List (String × PyVal)),
      _dataclass_to_spec ((k, .none) :: rest) = _dataclass_to_spec rest) ∧
    (∀ (k : String) (s : Sentinel) (rest : List (String × PyVal)),
      _dataclass_to_spec ((k, .sentinel s) :: rest) =
        (k, .sentinel s) :: _dataclass_to_spec rest) ∧
    (∀ (k : String) (rest : List (String × PyVal)),
      _dict_factory ((k, .none) :: rest) = _dict_factory rest) ∧
    (∀ (k : String) (s : Sentinel) (rest : List (String × PyVal)),
      _dict_factory ((k, .sentinel s) :: rest) =
        (k, .sentinel s) :: _dict_factory rest) ∧
    (∀ s : Sentinel, _object_to_spec (.sentinel s) = .sentinel s) ∧
    (∀ (e : ManifestEndpoint) (s : Sentinel), e.availableMemoryMb = .sentinel s →
      ("availableMemoryMb", PyVal.sentinel s) ∈ e.to_spec) ∧
    (∀ e : ManifestEndpoint, e.availableMemoryMb = .absent →
      ∀ v, ("availableMemoryMb", v) ∉ e.to_spec) ∧
    (∀ s : Sentinel, PyVal.sentinel s ≠ .none) ∧
    (∀ (s : Sentinel) (x : String), PyVal.sentinel s ≠ .str x) ∧
    (∀ (s : Sentinel) (n : Int), PyVal.sentinel s ≠ .int n) ∧
    (∀ (s : Sentinel) (q : Rat), PyVal.sentinel s ≠ .float q) ∧
    (∀ (s : Sentinel) (b : Bool), PyVal.sentinel s ≠ .bool b) ∧
    (∀ (s : Sentinel) (xs : List PyVal), PyVal.sentinel s ≠ .list xs) ∧
    (∀ (s : Sentinel) (d : List (String × PyVal)), PyVal.sentinel s ≠ .dict d) := by
  refine ⟨fun k rest => rfl, fun k s rest => rfl, fun k rest => rfl,
    fun k s rest => rfl, fun s => rfl, ?_, ?_,
    fun s h => PyVal.noConfusion h, fun s x h => PyVal.noConfusion h,
    fun s n h => PyVal.noConfusion h, fun s q h => PyVal.noConfusion h,
    fun s b h => PyVal.noConfusion h, fun s xs h => PyVal.noConfusion h,
    fun s d h => PyVal.noConfusion h⟩
  · intro e s hs
    have hmem : ("availableMemoryMb", PyVal.sentinel s) ∈ e.fieldsPyVal := by
      simp [ManifestEndpoint.fieldsPyVal, hs, IntExprField.toPyVal]
    have hres := mem_fields_to_spec_of_mem (v := PyVal.sentinel s) (by rfl) hmem
    simpa [ManifestEndpoint.to_spec, _dataclass_to_spec] using hres
  · intro e he v
    have hall : ∀ w, ("availableMemoryMb", w) ∈ e.fieldsPyVal →
        (_object_to_spec w).isNone = true := by
      intro w hw
      simp [ManifestEndpoint.fieldsPyVal] at hw
      rw [hw, he]
      rfl
    exact not_mem_fields_to_spec hall v

/-- C5 counterexample: for `StringParam("FOO")` (no label, description,
immutable or default), `_param_to_spec` emits only the keys `name` and
`type` — the claim's unconditional `label`, `description`, `immutable`
keys are absent. -/
theorem param_spec_label_key_missing :
    (_param_to_spec (.stringP { name := "FOO" })).map Prod.fst = ["name", "type"] ∧
    ((_param_to_spec (.stringP { name := "FOO" })).map Prod.fst).contains "label" = false ∧
    ((_param_to_spec (.stringP { name := "FOO" })).map Prod.fst).contains "description" = false ∧
    ((_param_to_spec (.stringP { name := "FOO" })).map Prod.fst).contains "immutable" = false :=
  ⟨rfl, rfl, rfl, rfl⟩

/-- C5 amended: `_param_to_spec` emits `name` and the variant's `type` tag
(`boolean|int|float|secret|list|string`, `_DefaultStringParam` included
under `string`) always, and `label`, `description`, `immutable`, `default`
each exactly when the param carries one (a `ListParam` default flattened
to its comma-join, so default `["a","b"]` serializes as `"a,b"`) — the
`None`-valued keys of the built record being dropped by the final
`_dict_to_spec` pass. -/
theorem param_spec_record_amended (p : AnyParam) :
    _param_to_spec p = paramSpecRecord p ∧
    _param_to_spec (.listP { name := "L", default := some ["a", "b"] }) =
      [("name", .str "L"), ("default", .str "a,b"), ("type", .str "list")] := by
  refine ⟨?_, by rfl⟩
  rcases p with q | q | q | q | q | q | s
  · obtain ⟨n, d, lb, ds, im, inp⟩ := q
    rcases d with _ | d <;> rcases lb with _ | lb <;> rcases ds with _ | ds <;>
      rcases im with _ | im <;> rfl
  · obtain ⟨n, d, lb, ds, im, inp⟩ := q
    rcases d with _ | d <;> rcases lb with _ | lb <;> rcases ds with _ | ds <;>
      rcases im with _ | im <;> rfl
  · obtain ⟨n, d, lb, ds, im, inp⟩ := q
    rcases d with _ | d <;> rcases lb with _ | lb <;> rcases ds with _ | ds <;>
      rcases im with _ | im <;> rfl
  · obtain ⟨n, d, lb, ds, im, inp⟩ := q
    rcases d with _ | d <;> rcases lb with _ | lb <;> rcases ds with _ | ds <;>
      rcases im with _ | im <;> rfl
  · obtain ⟨n, d, lb, ds, im, inp⟩ := q
    rcases d with _ | d <;> rcases lb with _ | lb <;> rcases ds with _ | ds <;>
      rcases im with _ | im <;> rfl
  · obtain ⟨n, d, lb, ds, im, inp⟩ := q
    rcases d with _ | d <;> rcases lb with _ | lb <;> rcases ds with _ | ds <;>
      rcases im with _ | im <;> rfl
  · obtain ⟨n, lb, ds, im⟩ := s
    rcases lb with _ | lb <;> rcases ds with _ | ds <;>
      rcases im with _ | im <;> rfl

end FirebaseFunctions
